import Mathlib

/-!
Shallow embedding of the `mcp_miniagent` repository's client/session
lifecycle layer (`agent/client.py`) and host registry layer
(`agent/host.py`).

The Python code is single-threaded cooperative async code whose only
effects are (a) mutation of the client/host object's own fields and
(b) awaited calls into the MCP SDK (subprocess spawn, session enter,
handshake, context exits, `list_tools`, `call_tool`).  We embed it as
pure state-passing functions: each operation takes the object state and
an `Env` record holding the outcome (`Except Fault _`) of every awaited
SDK call, and returns the result, the updated state, and the trace of
externally visible events it performed (in program order).  Python's
`raise` becomes an `Except.error` result; a `try/except` that swallows
an exception becomes a `match` on the outcome whose branches agree.

Python raises plain `Exception` objects distinguished by their message
strings; we encode the four distinct message forms of `client.py` as
the four constructors of `AgentError`.
-/

namespace Agent

/-- The payload of a Python exception raised by an SDK call (its message). -/
abbrev Fault := String

/-- A plain JSON-style mapping, used for tool input schemas and arguments.
We only need its identity and emptiness, so an association list suffices. -/
abbrev SchemaMap := List (String × String)

/-- The shape of `tool.inputSchema` as returned by the SDK
(`client.py` lines 94–103 branch on it):
a falsy value (`None` — and note an empty `dict` is also falsy in Python),
a typed structured (Pydantic) object exposing `model_dump` (always truthy),
a plain `dict` (truthy iff nonempty), or any other value whose Python
truthiness we record explicitly. -/
inductive RawSchema where
  | absent
  | structured (m : SchemaMap)
  | plain (m : SchemaMap)
  | unsupported (truthy : Bool)
  deriving Repr, DecidableEq

/-- Python truthiness of a `RawSchema` value (`if tool.inputSchema:`). -/
def RawSchema.isTruthy : RawSchema → Bool
  | .absent => false
  | .structured _ => true
  | .plain m => !m.isEmpty
  | .unsupported t => t

/-- Embedding of `client.py` lines 94–103: normalize the remote schema
representation into a plain mapping.  `if tool.inputSchema:` then
`model_dump()` for structured objects, pass-through for plain dicts,
`{}` for anything else; falsy schemas also give `{}`. -/
def normalizeInputSchema (r : RawSchema) : SchemaMap :=
  if r.isTruthy then
    match r with
    | .structured m => m
    | .plain m => m
    | _ => []
  else []

/-- One tool object of the SDK's `list_tools` result (`result.tools`). -/
structure RawTool where
  name : String
  description : Option String
  inputSchema : RawSchema
  deriving Repr, DecidableEq

/-- The dict built for each tool in `MCPClient.get_tools`
(lines 105–109), plus the optional `'_server'` key that
`ResearchHost._get_tools_from_clients` later writes onto these very
dicts (host.py line 87).  `server = none` means the key is absent. -/
structure ToolDict where
  name : String
  description : String
  inputSchema : SchemaMap
  server : Option String
  deriving Repr, DecidableEq

/-- `client.py` lines 105–109: build the cached dict for one SDK tool
(`tool.description or ""`, schema normalized, no `'_server'` key yet). -/
def rawToolToDict (t : RawTool) : ToolDict :=
  { name := t.name
    description := t.description.getD ""
    inputSchema := normalizeInputSchema t.inputSchema
    server := none }

/-- One content item of the SDK's `call_tool` result: has a `text`
attribute, has an `image` attribute, or neither (dropped by the code). -/
inductive RawContentItem where
  | text (t : String)
  | image (data mimeType : String)
  | other
  deriving Repr, DecidableEq

/-- The SDK's `CallToolResult`: ordered content items plus the
(possibly absent, here defaulted-to-false) `isError` flag. -/
structure RawCallResult where
  content : List RawContentItem
  isError : Bool
  deriving Repr, DecidableEq

/-- A normalized content part as built in `call_tool` lines 132–144. -/
inductive ContentPart where
  | text (t : String)
  | image (data mimeType : String)
  deriving Repr, DecidableEq

/-- The dict returned by `MCPClient.call_tool` (lines 128–150):
normalized parts in source order; `isError` true iff the key was set. -/
structure CallResultDict where
  content : List ContentPart
  isError : Bool
  deriving Repr, DecidableEq

/-- `call_tool` lines 132–144: map one raw item to its canonical part,
dropping items with neither a `text` nor an `image` attribute. -/
def normalizeContentItem : RawContentItem → Option ContentPart
  | .text t => some (.text t)
  | .image d m => some (.image d m)
  | .other => none

/-- Externally visible events a client operation may perform, in
program order: subprocess spawn (`stdio_client(...).__aenter__`),
session enter (`ClientSession(...).__aenter__`), the `initialize`
handshake, the two context releases of `_cleanup`, and the two remote
round-trips. -/
inductive Event where
  | spawn
  | enterSession
  | handshake
  | exitSession
  | exitStdio
  | listTools
  | callTool
  deriving Repr, DecidableEq

/-- Outcomes of the awaited SDK calls an operation may perform.
`Except.error f` means that call raised an exception with message `f`. -/
structure Env where
  spawnOutcome : Except Fault Unit
  sessionEnterOutcome : Except Fault Unit
  handshakeOutcome : Except Fault Unit
  sessionExitOutcome : Except Fault Unit
  stdioExitOutcome : Except Fault Unit
  listToolsOutcome : Except Fault (List RawTool)
  callToolOutcome : Except Fault RawCallResult
  deriving Repr

/-- The errors `client.py` raises, one constructor per distinct message:
`"Failed to connect to MCP server: {e}"`, `"Client is not connected.
Call connect() first."`, `"Failed to get tools: {e}"`, and
`"Failed to call tool '{name}': {e}"`.  Each wrapping constructor
carries the original cause. -/
inductive AgentError where
  | connectionError (cause : Fault)
  | notConnectedError
  | fetchError (cause : Fault)
  | invokeError (toolName : String) (cause : Fault)
  deriving Repr, DecidableEq

/-- The mutable fields of a `MCPClient` object (`__init__`, lines 14–21).
`session`, `stdioContext` and `sessionContext` record presence of the
`_session`, `_stdio_context` and `_session_context` handles. -/
structure MCPClient where
  session : Option Unit
  stdioContext : Option Unit
  sessionContext : Option Unit
  toolsCache : Option (List ToolDict)
  initialized : Bool
  deriving Repr, DecidableEq

/-- `MCPClient.__init__`: the freshly constructed (unconnected) client. -/
def MCPClient.init : MCPClient :=
  { session := none
    stdioContext := none
    sessionContext := none
    toolsCache := none
    initialized := false }

/-- Embedding of `MCPClient._cleanup` (client.py lines 52–78).
If `_session_context` is set it is cleared (together with `_session`)
and its `__aexit__` is awaited inside a `try/except` that swallows every
exception (including cancellation); then the same for `_stdio_context`;
finally `_initialized = False` and `_tools_cache = None`.  The swallowed
`__aexit__` outcomes come from `env`; both branches of each `match`
agree, which is exactly the `except ...: pass`.  The function is total:
no exception ever escapes. -/
def MCPClient.cleanup (env : Env) (s : MCPClient) : MCPClient × List Event :=
  let step1 : MCPClient × List Event :=
    match s.sessionContext with
    | none => (s, [])
    | some _ =>
        let s' := { s with sessionContext := none, session := none }
        match env.sessionExitOutcome with
        | .ok _ => (s', [Event.exitSession])
        | .error _ => (s', [Event.exitSession])
  let s1 := step1.1
  let step2 : MCPClient × List Event :=
    match s1.stdioContext with
    | none => (s1, [])
    | some _ =>
        let s' := { s1 with stdioContext := none }
        match env.stdioExitOutcome with
        | .ok _ => (s', [Event.exitStdio])
        | .error _ => (s', [Event.exitStdio])
  ({ step2.1 with initialized := false, toolsCache := none },
    step1.2 ++ step2.2)

/-- Embedding of `MCPClient.connect` (client.py lines 23–50).
Returns immediately when `_session` is already set.  Otherwise assigns
`_stdio_context`, awaits the spawn, assigns `_session_context`, awaits
the session enter, assigns `_session`, awaits the handshake, and sets
`_initialized = True`.  On any failure it runs `_cleanup` and raises
the wrapping `connectionError` with the original cause. -/
def MCPClient.connect (env : Env) (s : MCPClient) :
    Except AgentError Unit × MCPClient × List Event :=
  if s.session.isSome then (.ok (), s, [])
  else
    let s0 := { s with stdioContext := some () }
    match env.spawnOutcome with
    | .error f =>
        let c := MCPClient.cleanup env s0
        (.error (.connectionError f), c.1, Event.spawn :: c.2)
    | .ok _ =>
        let s1 := { s0 with sessionContext := some () }
        match env.sessionEnterOutcome with
        | .error f =>
            let c := MCPClient.cleanup env s1
            (.error (.connectionError f), c.1,
              Event.spawn :: Event.enterSession :: c.2)
        | .ok _ =>
            let s2 := { s1 with session := some () }
            match env.handshakeOutcome with
            | .error f =>
                let c := MCPClient.cleanup env s2
                (.error (.connectionError f), c.1,
                  Event.spawn :: Event.enterSession :: Event.handshake :: c.2)
            | .ok _ =>
                (.ok (), { s2 with initialized := true },
                  [Event.spawn, Event.enterSession, Event.handshake])

/-- Embedding of `MCPClient.get_tools` (client.py lines 80–115).
Rejects with `notConnectedError` unless `_initialized` and `_session`
are both set.  On a cache miss it awaits `list_tools`; a failure is
wrapped as `fetchError` and leaves the cache unset; on success the
normalized dicts populate the cache and are returned. -/
def MCPClient.get_tools (env : Env) (s : MCPClient) :
    Except AgentError (List ToolDict) × MCPClient × List Event :=
  if !s.initialized || s.session.isNone then
    (.error .notConnectedError, s, [])
  else
    match s.toolsCache with
    | some cache => (.ok cache, s, [])
    | none =>
        match env.listToolsOutcome with
        | .error f => (.error (.fetchError f), s, [Event.listTools])
        | .ok raws =>
            let tools := raws.map rawToolToDict
            (.ok tools, { s with toolsCache := some tools }, [Event.listTools])

/-- Embedding of `MCPClient.call_tool` (client.py lines 117–153).
Rejects with `notConnectedError` unless connected; awaits the remote
`call_tool`; a failure is wrapped as `invokeError` carrying the tool
name; on success the result parts are normalized in order. -/
def MCPClient.call_tool (env : Env) (s : MCPClient)
    (toolName : String) (_args : SchemaMap) :
    Except AgentError CallResultDict × MCPClient × List Event :=
  if !s.initialized || s.session.isNone then
    (.error .notConnectedError, s, [])
  else
    match env.callToolOutcome with
    | .error f => (.error (.invokeError toolName f), s, [Event.callTool])
    | .ok raw =>
        (.ok { content := raw.content.filterMap normalizeContentItem
               isError := raw.isError },
          s, [Event.callTool])

/-- Embedding of `MCPClient.disconnect` (client.py lines 155–157):
it only delegates to `_cleanup`. -/
def MCPClient.disconnect (env : Env) (s : MCPClient) : MCPClient × List Event :=
  MCPClient.cleanup env s

/-- The fields of a `ResearchHost` object that the modelled operations
touch (host.py line 53): the `mcp_clients` registry, a Python dict
keyed by server script, kept here as an insertion-ordered association
list with unique keys (exactly a dict's observable behavior).  The LLM
handle, model name, system prompt and print flags play no role in the
registry/catalog operations and are omitted. -/
structure ResearchHost where
  mcpClients : List (String × MCPClient)
  deriving Repr, DecidableEq

/-- Python dict lookup `self.mcp_clients[script]` / `script in self.mcp_clients`. -/
def ResearchHost.lookup (h : ResearchHost) (script : String) : Option MCPClient :=
  h.mcpClients.lookup script

/-- Python dict assignment `self.mcp_clients[script] = client`: updates
the entry in place when the key exists, appends otherwise. -/
def dictInsert (k : String) (v : MCPClient) :
    List (String × MCPClient) → List (String × MCPClient)
  | [] => [(k, v)]
  | (k', v') :: rest =>
      if k' = k then (k, v) :: rest else (k', v') :: dictInsert k v rest

/-- `self.mcp_clients[script] = client` on a host. -/
def ResearchHost.setClient (h : ResearchHost) (script : String)
    (c : MCPClient) : ResearchHost :=
  { h with mcpClients := dictInsert script c h.mcpClients }

/-- Embedding of `ResearchHost._ensure_clients_connected` (host.py
lines 69–75): for each script not yet in the registry, construct a
fresh client, `connect()` it, and register it.  A connect failure
propagates (the failed client is discarded, not registered; earlier
registrations stand).  Events are tagged with the script they belong
to.  `envOf` gives each script's SDK-call outcomes. -/
def ResearchHost.ensureClientsConnected (envOf : String → Env) :
    ResearchHost → List String →
    Except AgentError Unit × ResearchHost × List (String × Event)
  | h, [] => (.ok (), h, [])
  | h, script :: rest =>
      match h.lookup script with
      | some _ => ResearchHost.ensureClientsConnected envOf h rest
      | none =>
          match MCPClient.connect (envOf script) MCPClient.init with
          | (.error e, _, tr) => (.error e, h, tr.map (fun ev => (script, ev)))
          | (.ok _, c, tr) =>
              let h' := h.setClient script c
              match ResearchHost.ensureClientsConnected envOf h' rest with
              | (r, h'', tr') =>
                  (r, h'', tr.map (fun ev => (script, ev)) ++ tr')

/-- Tagging step of host.py line 87, `tool['_server'] = script`:
writes the `'_server'` key of one tool dict. -/
def tagTool (script : String) (t : ToolDict) : ToolDict :=
  { t with server := some script }

/-- One iteration of the merge loop in
`ResearchHost._get_tools_from_clients` (host.py lines 82–88) for one
script: skip if the script is not in the registry; otherwise call the
client's `get_tools` (an error propagates), then write
`tool['_server'] = script` on every returned dict.  Because
`get_tools` returns the cache list itself, this in-place write also
retags the client's cache, which the state update reflects. -/
def ResearchHost.getToolsOne (envOf : String → Env) (h : ResearchHost)
    (script : String) :
    Except AgentError (List ToolDict) × ResearchHost × List (String × Event) :=
  match h.lookup script with
  | none => (.ok [], h, [])
  | some c =>
      match MCPClient.get_tools (envOf script) c with
      | (.error e, c', tr) =>
          (.error e, h.setClient script c', tr.map (fun ev => (script, ev)))
      | (.ok ts, c', tr) =>
          let tagged := ts.map (tagTool script)
          (.ok tagged,
            h.setClient script { c' with toolsCache := some tagged },
            tr.map (fun ev => (script, ev)))

/-- The `for script in server_scripts` merge loop of
`ResearchHost._get_tools_from_clients` (host.py lines 81–90),
accumulating `all_tools` in iteration order. -/
def ResearchHost.mergeLoop (envOf : String → Env) :
    ResearchHost → List String →
    Except AgentError (List ToolDict) × ResearchHost × List (String × Event)
  | h, [] => (.ok [], h, [])
  | h, script :: rest =>
      match ResearchHost.getToolsOne envOf h script with
      | (.error e, h', tr) => (.error e, h', tr)
      | (.ok ts, h', tr) =>
          match ResearchHost.mergeLoop envOf h' rest with
          | (.error e, h'', tr') => (.error e, h'', tr ++ tr')
          | (.ok ts', h'', tr') => (.ok (ts ++ ts'), h'', tr ++ tr')

/-- Embedding of `ResearchHost._get_tools_from_clients` (host.py
lines 77–90): connect missing clients, then merge every registered
script's (tagged) catalog. -/
def ResearchHost.getToolsFromClients (envOf : String → Env)
    (h : ResearchHost) (scripts : List String) :
    Except AgentError (List ToolDict) × ResearchHost × List (String × Event) :=
  match ResearchHost.ensureClientsConnected envOf h scripts with
  | (.error e, h', tr) => (.error e, h', tr)
  | (.ok _, h', tr) =>
      match ResearchHost.mergeLoop envOf h' scripts with
      | (r, h'', tr') => (r, h'', tr ++ tr')

/-- Embedding of the server-resolution loop in
`ResearchHost.run_experiment` (host.py lines 208–213): `tool_server`
starts as `None`; the first tool dict whose `'name'` equals the
selected name supplies its `'_server'` value and the loop breaks. -/
def resolveToolServer (mcpTools : List ToolDict) (toolName : String) :
    Option String :=
  match mcpTools.find? (fun t => t.name == toolName) with
  | some t => t.server
  | none => none

/-- The reference merge the stateful loop computes (spec §3's tagged
catalog merge): each script's catalog, each descriptor tagged with its
origin script, concatenated in script iteration order. -/
def mergeCatalogs (cat : String → List ToolDict) (scripts : List String) :
    List ToolDict :=
  scripts.flatMap (fun sc => (cat sc).map (tagTool sc))

/-- Embedding of `ResearchHost.cleanup` (host.py lines 261–268):
iterate a snapshot of the registry, `await client.disconnect()` inside
`try/except Exception: pass`, then `self.mcp_clients.clear()`.
`client.disconnect()` is a dynamically dispatched awaited call; `disc`
gives its outcome per script (for a plain `MCPClient` it never faults,
but the `except` clause guards any fault, e.g. an injected one).  The
two agreeing branches of the `match` are the `except ...: pass`.
Returns the final host and the scripts whose disconnect was attempted,
in order. -/
def ResearchHost.cleanup (disc : String → Except Fault Unit)
    (h : ResearchHost) : ResearchHost × List String :=
  let attempts := h.mcpClients.map (fun p =>
    match disc p.1 with
    | .ok _ => p.1
    | .error _ => p.1)
  ({ h with mcpClients := [] }, attempts)

/-! ### Sample inputs used by the witnesses -/

/-- An environment in which every SDK call succeeds; the remote catalog
holds one tool. -/
def envOk : Env :=
  { spawnOutcome := .ok ()
    sessionEnterOutcome := .ok ()
    handshakeOutcome := .ok ()
    sessionExitOutcome := .ok ()
    stdioExitOutcome := .ok ()
    listToolsOutcome := .ok
      [{ name := "simple_query", description := some "query tool"
         inputSchema := .plain [("type", "object")] }]
    callToolOutcome := .ok { content := [.text "ok"], isError := false } }

/-- `envOk` with a cancellation fault injected into the session release. -/
def envSessionExitFault : Env :=
  { envOk with sessionExitOutcome := .error "cancelled" }

/-- `envOk` with the handshake failing. -/
def envHandshakeFault : Env :=
  { envOk with handshakeOutcome := .error "handshake refused" }

/-- `envOk` with the remote catalog fetch and the remote invocation
both failing. -/
def envOpsFault : Env :=
  { envOk with
    listToolsOutcome := .error "fetch failed"
    callToolOutcome := .error "invoke failed" }

/-- A connected client that has not yet fetched its catalog. -/
def connectedClient : MCPClient :=
  { session := some (), stdioContext := some (), sessionContext := some ()
    toolsCache := none, initialized := true }

/-- Every script in `scripts` has a registered, connected client whose
cache is populated with a list that, once tagged with that script,
agrees with the tagged catalog `cat` — it is either `cat sc` itself or
an already-tagged copy left by an earlier merge. -/
def cachesAgree (h : ResearchHost) (cat : String → List ToolDict)
    (scripts : List String) : Prop :=
  ∀ sc ∈ scripts, ∃ c ts, h.lookup sc = some c ∧ c.initialized = true ∧
    c.session.isSome = true ∧ c.toolsCache = some ts ∧
    ts.map (tagTool sc) = (cat sc).map (tagTool sc)

/-- Every script in `scripts` has a registered, connected client whose
cache holds exactly `cat sc` tagged with `sc` (the state a merge leaves
behind). -/
def cachesTagged (h : ResearchHost) (cat : String → List ToolDict)
    (scripts : List String) : Prop :=
  ∀ sc ∈ scripts, ∃ c, h.lookup sc = some c ∧ c.initialized = true ∧
    c.session.isSome = true ∧
    c.toolsCache = some ((cat sc).map (tagTool sc))

/-- The endpoint scripts of the two-server sample. -/
def sampleScripts : List String := ["srvA", "srvB"]

/-- Two sample single-tool catalogs, one per endpoint, with a distinct
tool name each. -/
def sampleCat : String → List ToolDict := fun sc =>
  if sc = "srvA" then
    [{ name := "search_with_filters", description := "filter search"
       inputSchema := [], server := none }]
  else if sc = "srvB" then
    [{ name := "tool_xy87", description := "general tool"
       inputSchema := [], server := none }]
  else []

/-- A host whose two sample clients are connected with populated,
not-yet-tagged caches. -/
def sampleHost : ResearchHost :=
  { mcpClients :=
      [("srvA", { connectedClient with toolsCache := some (sampleCat "srvA") }),
       ("srvB", { connectedClient with toolsCache := some (sampleCat "srvB") })] }

/-- Per-script environments for the sample host. -/
def sampleEnvOf : String → Env := fun _ => envOk

/-! ### Helper lemmas -/

/-- Closed form of `_cleanup`: both contexts end cleared, the flags end
reset, the surviving session handle is cleared whenever the session
context was open, and the trace is exactly one release attempt per open
context, session first — for every environment, so also when either
`__aexit__` faults. -/
theorem cleanup_eq (env : Env) (s : MCPClient) :
    MCPClient.cleanup env s =
      ({ session := if s.sessionContext.isSome then none else s.session
         stdioContext := none
         sessionContext := none
         toolsCache := none
         initialized := false },
        (if s.sessionContext.isSome then [Event.exitSession] else []) ++
          (if s.stdioContext.isSome then [Event.exitStdio] else [])) := by
  obtain ⟨ses, sx, sc, tc, ini⟩ := s
  cases sc <;> cases sx <;>
    cases h1 : env.sessionExitOutcome <;> cases h2 : env.stdioExitOutcome <;>
      simp [MCPClient.cleanup, h1, h2]

/-! ### Claims -/

/-- **C1.** For every client state and every environment (including one
where the session release faults), `_cleanup` attempts the session
release strictly before the stdio release, attempts the stdio release
even when the session release faults, returns normally (it is a total
function into `MCPClient × List Event`; every exception of either
release is swallowed), and is a no-op on a client with neither context
open (the freshly constructed state). -/
theorem cleanup_session_before_stdio (env : Env) (s : MCPClient) :
    ((MCPClient.cleanup env s).2 = [] ∨
      (MCPClient.cleanup env s).2 = [Event.exitSession] ∨
      (MCPClient.cleanup env s).2 = [Event.exitStdio] ∨
      (MCPClient.cleanup env s).2 = [Event.exitSession, Event.exitStdio]) ∧
    (s.sessionContext.isSome = true →
      Event.exitSession ∈ (MCPClient.cleanup env s).2) ∧
    (s.stdioContext.isSome = true →
      Event.exitStdio ∈ (MCPClient.cleanup env s).2) ∧
    (s.sessionContext.isSome = true → s.stdioContext.isSome = true →
      (MCPClient.cleanup env s).2 = [Event.exitSession, Event.exitStdio]) ∧
    (s = MCPClient.init → MCPClient.cleanup env s = (s, [])) := by
  rw [cleanup_eq]
  obtain ⟨ses, sx, sc, tc, ini⟩ := s
  cases sc <;> cases sx <;> (simp [MCPClient.init]; try (intros; simp_all))

/-- Witness for **C1**: a fully connected client whose session release
is made to fault still gets its stdio release attempted, after the
session release. -/
theorem cleanup_session_before_stdio_witness :
    connectedClient.sessionContext.isSome = true ∧
    connectedClient.stdioContext.isSome = true ∧
    (MCPClient.cleanup envSessionExitFault connectedClient).2 =
      [Event.exitSession, Event.exitStdio] :=
  ⟨rfl, rfl,
    (cleanup_session_before_stdio envSessionExitFault connectedClient).2.2.2.1
      rfl rfl⟩

/-- **C2.** Whenever `connect` fails (spawn, session creation or
handshake), the raised error is the wrapping connection error carrying
the original cause, the client it leaves behind is exactly the freshly
constructed (unconnected) state — session handle absent, contexts
released, flag unset, cache empty — so `connect` can be retried, and
the transport release of its self-cleanup appears in the trace before
the error is raised. -/
theorem connect_failure_cleans_and_resets (env : Env) (s : MCPClient)
    (e : AgentError) (hfail : (MCPClient.connect env s).1 = .error e) :
    (∃ f, e = AgentError.connectionError f) ∧
    (MCPClient.connect env s).2.1 = MCPClient.init ∧
    Event.exitStdio ∈ (MCPClient.connect env s).2.2 := by
  obtain ⟨ses, sx, sc, tc, ini⟩ := s
  cases ses with
  | some u => simp [MCPClient.connect] at hfail
  | none =>
    cases h1 : env.spawnOutcome with
    | error f =>
        cases sc <;> simp_all [MCPClient.connect, cleanup_eq, MCPClient.init] <;>
          exact ⟨f, hfail.symm⟩
    | ok v =>
      cases h2 : env.sessionEnterOutcome with
      | error f =>
          cases sc <;> simp_all [MCPClient.connect, cleanup_eq, MCPClient.init] <;>
            exact ⟨f, hfail.symm⟩
      | ok w =>
        cases h3 : env.handshakeOutcome with
        | error f =>
            cases sc <;> simp_all [MCPClient.connect, cleanup_eq, MCPClient.init] <;>
              exact ⟨f, hfail.symm⟩
        | ok x => simp [MCPClient.connect, h1, h2, h3] at hfail

/-- Witness for **C2**: a handshake failure on a fresh client. -/
theorem connect_failure_cleans_and_resets_witness :
    (MCPClient.connect envHandshakeFault MCPClient.init).1 =
      .error (.connectionError "handshake refused") ∧
    (MCPClient.connect envHandshakeFault MCPClient.init).2.1 =
      MCPClient.init ∧
    Event.exitStdio ∈ (MCPClient.connect envHandshakeFault MCPClient.init).2.2 := by
  have h := connect_failure_cleans_and_resets envHandshakeFault MCPClient.init
    (.connectionError "handshake refused") rfl
  exact ⟨rfl, h.2.1, h.2.2⟩

/-- A client that already holds a session: `connect` returns at once
(client.py lines 25–26), with no event and no state change. -/
theorem connect_of_connected (env : Env) (s : MCPClient)
    (h : s.session.isSome = true) :
    MCPClient.connect env s = (.ok (), s, []) := by
  simp [MCPClient.connect, h]

/-- **C3.** After a successful `connect`, a second `connect` (under any
environment) returns immediately: it succeeds, performs no event at all
(in particular no subprocess spawn and no handshake), and leaves the
client state exactly as it was. -/
theorem connect_idempotent (env env' : Env) (s : MCPClient)
    (hok : (MCPClient.connect env s).1 = .ok ()) :
    MCPClient.connect env' ((MCPClient.connect env s).2.1) =
      (.ok (), (MCPClient.connect env s).2.1, []) := by
  have hsome : ((MCPClient.connect env s).2.1).session.isSome = true := by
    by_cases hses : s.session.isSome
    · simp [MCPClient.connect, hses]
    · cases h1 : env.spawnOutcome with
      | error f => simp [MCPClient.connect, hses, h1] at hok
      | ok v =>
        cases h2 : env.sessionEnterOutcome with
        | error f => simp [MCPClient.connect, hses, h1, h2] at hok
        | ok w =>
          cases h3 : env.handshakeOutcome with
          | error f => simp [MCPClient.connect, hses, h1, h2, h3] at hok
          | ok x => simp [MCPClient.connect, hses, h1, h2, h3]
  exact connect_of_connected env' _ hsome

/-- Witness for **C3**: connecting twice from the fresh state under the
all-succeeding environment. -/
theorem connect_idempotent_witness :
    (MCPClient.connect envOk MCPClient.init).1 = .ok () ∧
    MCPClient.connect envOk ((MCPClient.connect envOk MCPClient.init).2.1) =
      (.ok (), (MCPClient.connect envOk MCPClient.init).2.1, []) :=
  ⟨rfl, connect_idempotent envOk envOk MCPClient.init rfl⟩

/-- **C4.** A successful `get_tools` populates the cache with exactly
the returned list, and every later `get_tools` (under any environment)
returns that identical list with no remote event and no state change —
so a client performs at most one remote catalog fetch per lifetime. -/
theorem get_tools_cached_after_success (env env' : Env) (s : MCPClient)
    (ts : List ToolDict) (hok : (MCPClient.get_tools env s).1 = .ok ts) :
    ((MCPClient.get_tools env s).2.1).toolsCache = some ts ∧
    MCPClient.get_tools env' ((MCPClient.get_tools env s).2.1) =
      (.ok ts, (MCPClient.get_tools env s).2.1, []) := by
  obtain ⟨ses, sx, sc, tc, ini⟩ := s
  cases ini with
  | false => simp [MCPClient.get_tools] at hok
  | true =>
    cases ses with
    | none => simp [MCPClient.get_tools] at hok
    | some u =>
      cases tc with
      | some cache => simp_all [MCPClient.get_tools]
      | none =>
        cases hl : env.listToolsOutcome with
        | error f => simp [MCPClient.get_tools, hl] at hok
        | ok raws => simp_all [MCPClient.get_tools]

/-- Witness for **C4**: a connected client fetches once under `envOk`
and the second read is a pure cache hit. -/
theorem get_tools_cached_after_success_witness :
    (MCPClient.get_tools envOk connectedClient).1 =
      .ok [{ name := "simple_query", description := "query tool"
             inputSchema := [("type", "object")], server := none }] ∧
    ((MCPClient.get_tools envOk connectedClient).2.1).toolsCache =
      some [{ name := "simple_query", description := "query tool"
              inputSchema := [("type", "object")], server := none }] ∧
    MCPClient.get_tools envOk ((MCPClient.get_tools envOk connectedClient).2.1) =
      (.ok [{ name := "simple_query", description := "query tool"
              inputSchema := [("type", "object")], server := none }],
        (MCPClient.get_tools envOk connectedClient).2.1, []) :=
  ⟨rfl, get_tools_cached_after_success envOk envOk connectedClient _ rfl⟩

/-- **C7.** On a connected client, a catalog-fetch failure surfaces as
the wrapping fetch error and an invocation failure as the wrapping
invoke error carrying the tool name, and in either case the client
state is completely unchanged (session handle, both contexts,
`_initialized` flag and cache all as before) — the connection is not
torn down. -/
theorem op_failure_keeps_connection (env : Env) (s : MCPClient)
    (toolName : String) (args : SchemaMap) (e e' : AgentError)
    (hini : s.initialized = true) (hses : s.session.isSome = true) :
    ((MCPClient.get_tools env s).1 = .error e →
      (MCPClient.get_tools env s).2.1 = s ∧ ∃ f, e = .fetchError f) ∧
    ((MCPClient.call_tool env s toolName args).1 = .error e' →
      (MCPClient.call_tool env s toolName args).2.1 = s ∧
        ∃ f, e' = .invokeError toolName f) := by
  obtain ⟨ses, sx, sc, tc, ini⟩ := s
  cases ses with
  | none => simp at hses
  | some u =>
    constructor
    · intro hf
      cases tc with
      | some cache => simp_all [MCPClient.get_tools]
      | none =>
        cases hl : env.listToolsOutcome with
        | error f =>
            simp_all [MCPClient.get_tools]
            exact ⟨f, hf.symm⟩
        | ok raws => simp_all [MCPClient.get_tools]
    · intro hf
      cases hcall : env.callToolOutcome with
      | error f =>
          simp_all [MCPClient.call_tool]
          exact ⟨f, hf.symm⟩
      | ok raw => simp_all [MCPClient.call_tool]

/-- Witness for **C7**: a connected client under an environment whose
fetch and invocation both fail keeps its state. -/
theorem op_failure_keeps_connection_witness :
    connectedClient.initialized = true ∧
    connectedClient.session.isSome = true ∧
    ((MCPClient.get_tools envOpsFault connectedClient).2.1 =
        connectedClient ∧
      ∃ f, AgentError.fetchError "fetch failed" = AgentError.fetchError f) ∧
    ((MCPClient.call_tool envOpsFault connectedClient "simple_query" []).2.1 =
        connectedClient ∧
      ∃ f, AgentError.invokeError "simple_query" "invoke failed" =
        AgentError.invokeError "simple_query" f) := by
  have h := op_failure_keeps_connection envOpsFault connectedClient
    "simple_query" [] (.fetchError "fetch failed")
    (.invokeError "simple_query" "invoke failed") rfl rfl
  exact ⟨rfl, rfl, h.1 rfl, h.2 rfl⟩

/-- **C5.** On a client that is not connected (`_initialized` unset or
`_session` absent — true of a fresh client and of any client after
`disconnect`), `get_tools` and `call_tool` fail with the
not-connected error, leave the state untouched and perform no remote
event; `disconnect` always leaves `_initialized` unset; and
`disconnect` on a never-connected client is a no-op with no events. -/
theorem not_connected_rejected (env : Env) (s : MCPClient)
    (toolName : String) (args : SchemaMap)
    (h : s.initialized = false ∨ s.session = none) :
    MCPClient.get_tools env s = (.error .notConnectedError, s, []) ∧
    MCPClient.call_tool env s toolName args =
      (.error .notConnectedError, s, []) ∧
    ((MCPClient.disconnect env s).1).initialized = false ∧
    MCPClient.disconnect env MCPClient.init = (MCPClient.init, []) := by
  have hguard : (!s.initialized || s.session.isNone) = true := by
    rcases h with h | h <;> simp [h]
  refine ⟨?_, ?_, ?_, ?_⟩
  · simp [MCPClient.get_tools, hguard]
  · simp [MCPClient.call_tool, hguard]
  · simp [MCPClient.disconnect, cleanup_eq]
  · simp [MCPClient.disconnect, cleanup_eq, MCPClient.init]

/-- Witness for **C5**: the freshly constructed client rejects both
operations and tolerates `disconnect`. -/
theorem not_connected_rejected_witness :
    (MCPClient.init.initialized = false ∨ MCPClient.init.session = none) ∧
    MCPClient.get_tools envOk MCPClient.init =
      (.error .notConnectedError, MCPClient.init, []) ∧
    MCPClient.call_tool envOk MCPClient.init "simple_query" [] =
      (.error .notConnectedError, MCPClient.init, []) ∧
    ((MCPClient.disconnect envOk MCPClient.init).1).initialized = false ∧
    MCPClient.disconnect envOk MCPClient.init = (MCPClient.init, []) :=
  ⟨Or.inl rfl,
    not_connected_rejected envOk MCPClient.init "simple_query" [] (Or.inl rfl)⟩

/-- **C6.** Schema normalization is a total function (it never raises):
a structured (`model_dump`-capable) schema yields its mapping form, a
plain mapping passes through unchanged, and an unsupported or absent
schema yields the empty mapping. -/
theorem schema_normalization_cases (m : SchemaMap) (t : Bool) :
    normalizeInputSchema (.structured m) = m ∧
    normalizeInputSchema (.plain m) = m ∧
    normalizeInputSchema (.unsupported t) = [] ∧
    normalizeInputSchema .absent = [] := by
  refine ⟨rfl, ?_, ?_, rfl⟩
  · cases m <;> simp [normalizeInputSchema, RawSchema.isTruthy]
  · cases t <;> simp [normalizeInputSchema, RawSchema.isTruthy]

/-! ### Host helper lemmas -/

/-- Writing the `'_server'` key twice with the same script is the
identity on the second write. -/
theorem map_tagTool_idem (sc : String) (l : List ToolDict) :
    (l.map (tagTool sc)).map (tagTool sc) = l.map (tagTool sc) := by
  induction l with
  | nil => rfl
  | cons t ts ih => simp [tagTool, ih]

/-- Dict assignment then lookup of the same key. -/
theorem lookup_dictInsert_self (k : String) (v : MCPClient)
    (l : List (String × MCPClient)) :
    (dictInsert k v l).lookup k = some v := by
  induction l with
  | nil => simp [dictInsert, List.lookup_cons]
  | cons p rest ih =>
      obtain ⟨k', v'⟩ := p
      by_cases hk : k' = k
      · subst hk; simp [dictInsert, List.lookup_cons]
      · have hbeq : (k == k') = false := by
          rw [beq_eq_false_iff_ne]
          exact fun hx => hk hx.symm
        simp [dictInsert, hk, List.lookup_cons, hbeq, ih]

/-- Dict assignment leaves other keys' lookups unchanged. -/
theorem lookup_dictInsert_ne (k k' : String) (v : MCPClient)
    (l : List (String × MCPClient)) (h : k' ≠ k) :
    (dictInsert k v l).lookup k' = l.lookup k' := by
  have hbeq : (k' == k) = false := by rw [beq_eq_false_iff_ne]; exact h
  induction l with
  | nil => simp [dictInsert, List.lookup_cons, hbeq]
  | cons p rest ih =>
      obtain ⟨k'', v''⟩ := p
      by_cases hk : k'' = k
      · subst hk; simp [dictInsert, List.lookup_cons, hbeq]
      · simp [dictInsert, hk, List.lookup_cons, ih]

/-- Re-assigning a key the value it already maps to leaves the dict
unchanged. -/
theorem dictInsert_lookup_eq (k : String) (v : MCPClient) :
    ∀ l : List (String × MCPClient), l.lookup k = some v →
    dictInsert k v l = l := by
  intro l
  induction l with
  | nil => intro h; exact Option.noConfusion h
  | cons p rest ih =>
      obtain ⟨k', v'⟩ := p
      intro h
      by_cases hk : k' = k
      · subst hk
        simp [List.lookup_cons] at h
        simp [dictInsert, h]
      · have hbeq : (k == k') = false := by
          rw [beq_eq_false_iff_ne]
          exact fun hx => hk hx.symm
        rw [List.lookup_cons] at h
        simp [hbeq] at h
        simp [dictInsert, hk, ih h]

/-- `setClient` then lookup of the same script. -/
theorem lookup_setClient_self (h : ResearchHost) (sc : String)
    (c : MCPClient) : (h.setClient sc c).lookup sc = some c :=
  lookup_dictInsert_self sc c h.mcpClients

/-- `setClient` leaves other scripts' lookups unchanged. -/
theorem lookup_setClient_ne (h : ResearchHost) (sc sc' : String)
    (c : MCPClient) (hne : sc' ≠ sc) :
    (h.setClient sc c).lookup sc' = h.lookup sc' :=
  lookup_dictInsert_ne sc sc' c h.mcpClients hne

/-- `get_tools` on a connected client with a populated cache is a pure
cache hit: the cached list is returned, no event happens, the state is
unchanged. -/
theorem get_tools_cache_hit (env : Env) (c : MCPClient)
    (ts : List ToolDict) (h1 : c.initialized = true)
    (h2 : c.session.isSome = true) (h3 : c.toolsCache = some ts) :
    MCPClient.get_tools env c = (.ok ts, c, []) := by
  obtain ⟨ses, sx, sc, tc, ini⟩ := c
  cases ses <;> simp_all [MCPClient.get_tools]

/-- One merge iteration on a registered, connected, cache-populated
client: the tagged cache is returned and written back. -/
theorem getToolsOne_cached (envOf : String → Env) (h : ResearchHost)
    (sc : String) (c : MCPClient) (ts : List ToolDict)
    (hl : h.lookup sc = some c) (h1 : c.initialized = true)
    (h2 : c.session.isSome = true) (h3 : c.toolsCache = some ts) :
    ResearchHost.getToolsOne envOf h sc =
      (.ok (ts.map (tagTool sc)),
        h.setClient sc { c with toolsCache := some (ts.map (tagTool sc)) },
        []) := by
  simp [ResearchHost.getToolsOne, hl,
    get_tools_cache_hit (envOf sc) c ts h1 h2 h3]

/-- The merge loop over cache-populated connected clients: it returns
the tagged catalogs concatenated in script order, leaves every visited
client's cache tagged, touches no other registry entry, and performs no
event. -/
theorem mergeLoop_cached (envOf : String → Env)
    (cat : String → List ToolDict) :
    ∀ (scripts : List String) (h : ResearchHost),
    cachesAgree h cat scripts →
    ∃ h', ResearchHost.mergeLoop envOf h scripts =
        (.ok (mergeCatalogs cat scripts), h', []) ∧
      cachesTagged h' cat scripts ∧
      (∀ sc, sc ∉ scripts → h'.lookup sc = h.lookup sc) := by
  intro scripts
  induction scripts with
  | nil =>
      intro h _
      exact ⟨h, by simp [ResearchHost.mergeLoop, mergeCatalogs],
        by simp [cachesTagged], fun sc _ => rfl⟩
  | cons sc rest ih =>
      intro h hagree
      obtain ⟨c, ts, hl, h1, h2, h3, hts⟩ := hagree sc (by simp)
      have hone := getToolsOne_cached envOf h sc c ts hl h1 h2 h3
      have hagree' : cachesAgree
          (h.setClient sc { c with toolsCache := some (ts.map (tagTool sc)) })
          cat rest := by
        intro sc' hsc'
        by_cases he : sc' = sc
        · subst he
          refine ⟨{ c with toolsCache := some (ts.map (tagTool sc')) },
            ts.map (tagTool sc'), ?_, h1, h2, rfl, ?_⟩
          · exact lookup_setClient_self h sc' _
          · rw [map_tagTool_idem]; exact hts
        · obtain ⟨c', ts', hl', h1', h2', h3', hts'⟩ :=
            hagree sc' (by simp [hsc'])
          refine ⟨c', ts', ?_, h1', h2', h3', hts'⟩
          rw [lookup_setClient_ne h sc sc' _ he]
          exact hl'
      obtain ⟨h', hml, htag, hpres⟩ := ih _ hagree'
      refine ⟨h', ?_, ?_, ?_⟩
      · rw [hts] at hone hml
        simp [ResearchHost.mergeLoop, hone, hml, mergeCatalogs,
          List.flatMap_cons]
      · intro sc' hsc'
        rcases (by simpa using hsc' : sc' = sc ∨ sc' ∈ rest) with he | hin
        · subst he
          by_cases hr : sc' ∈ rest
          · exact htag sc' hr
          · refine ⟨{ c with toolsCache := some (ts.map (tagTool sc')) },
              ?_, h1, h2, ?_⟩
            · rw [hpres sc' hr]
              exact lookup_setClient_self h sc' _
            · exact congrArg some hts
        · exact htag sc' hin
      · intro sc' hnot
        have hr : sc' ∉ rest := fun hx => hnot (by simp [hx])
        have hne : sc' ≠ sc := fun hx => hnot (by simp [hx])
        rw [hpres sc' hr]
        exact lookup_setClient_ne h sc sc' _ hne

/-- The merge loop on already-tagged caches returns the same merged
catalog and leaves the host exactly unchanged. -/
theorem mergeLoop_tagged (envOf : String → Env)
    (cat : String → List ToolDict) :
    ∀ (scripts : List String) (h : ResearchHost),
    cachesTagged h cat scripts →
    ResearchHost.mergeLoop envOf h scripts =
      (.ok (mergeCatalogs cat scripts), h, []) := by
  intro scripts
  induction scripts with
  | nil => intro h _; simp [ResearchHost.mergeLoop, mergeCatalogs]
  | cons sc rest ih =>
      intro h htag
      obtain ⟨c, hl, h1, h2, h3⟩ := htag sc (by simp)
      have hone := getToolsOne_cached envOf h sc c
        ((cat sc).map (tagTool sc)) hl h1 h2 h3
      rw [map_tagTool_idem] at hone
      have hc : ({ c with toolsCache := some ((cat sc).map (tagTool sc)) } : MCPClient) = c := by
        obtain ⟨ses, sx, scx, tc, ini⟩ := c
        simp_all
      rw [hc] at hone
      have hset : h.setClient sc c = h := by
        have := dictInsert_lookup_eq sc c h.mcpClients hl
        cases h with
        | mk cl => simp [ResearchHost.setClient, this]
      rw [hset] at hone
      have hrest : cachesTagged h cat rest :=
        fun sc' hsc' => htag sc' (by simp [hsc'])
      simp [ResearchHost.mergeLoop, hone, ih h hrest, mergeCatalogs,
        List.flatMap_cons]

/-- When every requested script is already registered,
`_ensure_clients_connected` does nothing. -/
theorem ensure_noop (envOf : String → Env) :
    ∀ (scripts : List String) (h : ResearchHost),
    (∀ sc ∈ scripts, (h.lookup sc).isSome = true) →
    ResearchHost.ensureClientsConnected envOf h scripts = (.ok (), h, []) := by
  intro scripts
  induction scripts with
  | nil => intro h _; simp [ResearchHost.ensureClientsConnected]
  | cons sc rest ih =>
      intro h hall
      obtain ⟨c, hc⟩ := Option.isSome_iff_exists.mp (hall sc (by simp))
      simp [ResearchHost.ensureClientsConnected, hc,
        ih h (fun sc' h' => hall sc' (by simp [h']))]

/-- `l.any p` is the presence bit of `l.find? p`. -/
theorem any_eq_isSome_find? (p : ToolDict → Bool) (l : List ToolDict) :
    l.any p = (l.find? p).isSome := by
  induction l with
  | nil => rfl
  | cons t ts ih =>
      cases hp : p t <;>
        simp [List.any_cons, List.find?_cons_of_pos,
          List.find?_cons_of_neg, hp, ih]

/-- Tagging preserves names, so name search commutes with tagging. -/
theorem find?_name_map_tag (sc n : String) (l : List ToolDict) :
    (l.map (tagTool sc)).find? (fun t => t.name == n) =
      (l.find? (fun t => t.name == n)).map (tagTool sc) := by
  induction l with
  | nil => rfl
  | cons t ts ih =>
      cases hp : (t.name == n) <;>
        simp [tagTool, List.find?_cons_of_pos, List.find?_cons_of_neg,
          hp, ih]

/-- The resolution loop as a `bind` over the first name match. -/
theorem resolveToolServer_eq_bind (l : List ToolDict) (n : String) :
    resolveToolServer l n =
      (l.find? (fun t => t.name == n)).bind ToolDict.server := by
  unfold resolveToolServer
  cases l.find? (fun t => t.name == n) <;> rfl

/-- Resolution over a merged, tagged catalog is first-match-wins in
script iteration order: it returns exactly the first script whose
catalog contains the name. -/
theorem resolve_mergeCatalogs (cat : String → List ToolDict)
    (scripts : List String) (n : String) :
    resolveToolServer (mergeCatalogs cat scripts) n =
      scripts.find? (fun sc => (cat sc).any (fun t => t.name == n)) := by
  induction scripts with
  | nil => rfl
  | cons sc rest ih =>
      rw [resolveToolServer_eq_bind, mergeCatalogs, List.flatMap_cons,
        List.find?_append, find?_name_map_tag]
      cases hfind : (cat sc).find? (fun t => t.name == n) with
      | some t =>
          have hany : (cat sc).any (fun t => t.name == n) = true := by
            rw [any_eq_isSome_find?, hfind]; rfl
          rw [@List.find?_cons_of_pos _
            (fun sc => (cat sc).any fun t => t.name == n) sc rest hany]
          rfl
      | none =>
          have hany : (cat sc).any (fun t => t.name == n) = false := by
            rw [any_eq_isSome_find?, hfind]; rfl
          rw [@List.find?_cons_of_neg _
            (fun sc => (cat sc).any fun t => t.name == n) sc rest
            (by simp [hany]), ← ih, resolveToolServer_eq_bind]
          rfl

/-- Sample hypothesis: the two-server host's caches agree with the
sample catalogs. -/
theorem sampleHost_cachesAgree :
    cachesAgree sampleHost sampleCat sampleScripts := by
  intro sc hsc
  rcases (by simpa [sampleScripts] using hsc : sc = "srvA" ∨ sc = "srvB") with
    rfl | rfl
  · exact ⟨_, sampleCat "srvA", rfl, rfl, rfl, rfl, rfl⟩
  · exact ⟨_, sampleCat "srvB", rfl, rfl, rfl, rfl, rfl⟩

/-- **C9.** On a host whose requested scripts are connected with
populated caches, the merge returns every script's catalog tagged with
its one origin script, concatenated in script iteration order; every
surfaced descriptor carries exactly one origin endpoint, and resolving
a tool name over the merged list is deterministic first-match-wins
over the script ordering. -/
theorem merged_catalog_single_origin_first_match
    (envOf : String → Env) (h : ResearchHost)
    (cat : String → List ToolDict) (scripts : List String)
    (toolName : String) (hc : cachesAgree h cat scripts) :
    (ResearchHost.getToolsFromClients envOf h scripts).1 =
      .ok (mergeCatalogs cat scripts) ∧
    (∀ t ∈ mergeCatalogs cat scripts, ∃ sc ∈ scripts, t.server = some sc) ∧
    resolveToolServer (mergeCatalogs cat scripts) toolName =
      scripts.find? (fun sc => (cat sc).any (fun t => t.name == toolName)) := by
  obtain ⟨h', hml, htag, hpres⟩ := mergeLoop_cached envOf cat scripts h hc
  have hsome : ∀ sc ∈ scripts, (h.lookup sc).isSome = true := by
    intro sc hsc
    obtain ⟨c, ts, hl, _⟩ := hc sc hsc
    simp [hl]
  have hens := ensure_noop envOf scripts h hsome
  refine ⟨?_, ?_, resolve_mergeCatalogs cat scripts toolName⟩
  · simp [ResearchHost.getToolsFromClients, hens, hml]
  · intro t ht
    rw [mergeCatalogs, List.mem_flatMap] at ht
    obtain ⟨sc, hsc, htm⟩ := ht
    rw [List.mem_map] at htm
    obtain ⟨t₀, _, rfl⟩ := htm
    exact ⟨sc, hsc, rfl⟩

/-- Witness for **C9**: two endpoints exporting distinct tools;
`tool_xy87` resolves to the second endpoint. -/
theorem merged_catalog_single_origin_first_match_witness :
    cachesAgree sampleHost sampleCat sampleScripts ∧
    ((ResearchHost.getToolsFromClients sampleEnvOf sampleHost sampleScripts).1 =
        .ok (mergeCatalogs sampleCat sampleScripts) ∧
      (∀ t ∈ mergeCatalogs sampleCat sampleScripts,
        ∃ sc ∈ sampleScripts, t.server = some sc) ∧
      resolveToolServer (mergeCatalogs sampleCat sampleScripts) "tool_xy87" =
        sampleScripts.find?
          (fun sc => (sampleCat sc).any (fun t => t.name == "tool_xy87"))) :=
  ⟨sampleHost_cachesAgree,
    merged_catalog_single_origin_first_match sampleEnvOf sampleHost sampleCat
      sampleScripts "tool_xy87" sampleHost_cachesAgree⟩

/-- **C10.** The merge writes the `'_server'` tag onto the very
descriptors stored in each client's cache (value semantics: the
post-merge host's caches hold the tagged descriptors), tagging changes
no other descriptor field, and a second merge over the same scripts
returns the identical catalog and leaves the host exactly as the first
merge left it (the tagging is idempotent). -/
theorem merge_tags_caches_idempotently
    (envOf envOf' : String → Env) (h : ResearchHost)
    (cat : String → List ToolDict) (scripts : List String)
    (hc : cachesAgree h cat scripts) :
    ∃ h', ResearchHost.getToolsFromClients envOf h scripts =
        (.ok (mergeCatalogs cat scripts), h', []) ∧
      (∀ sc ∈ scripts, ∃ c, h'.lookup sc = some c ∧
        c.toolsCache = some ((cat sc).map (tagTool sc))) ∧
      ResearchHost.getToolsFromClients envOf' h' scripts =
        (.ok (mergeCatalogs cat scripts), h', []) ∧
      (∀ (sc : String) (t : ToolDict), (tagTool sc t).name = t.name ∧
        (tagTool sc t).description = t.description ∧
        (tagTool sc t).inputSchema = t.inputSchema) := by
  obtain ⟨h', hml, htag, hpres⟩ := mergeLoop_cached envOf cat scripts h hc
  have hsome : ∀ sc ∈ scripts, (h.lookup sc).isSome = true := by
    intro sc hsc
    obtain ⟨c, ts, hl, _⟩ := hc sc hsc
    simp [hl]
  have hens := ensure_noop envOf scripts h hsome
  have hsome' : ∀ sc ∈ scripts, (h'.lookup sc).isSome = true := by
    intro sc hsc
    obtain ⟨c, hl, _⟩ := htag sc hsc
    simp [hl]
  have hens' := ensure_noop envOf' scripts h' hsome'
  have hml' := mergeLoop_tagged envOf' cat scripts h' htag
  refine ⟨h', ?_, ?_, ?_, fun sc t => ⟨rfl, rfl, rfl⟩⟩
  · simp [ResearchHost.getToolsFromClients, hens, hml]
  · intro sc hsc
    obtain ⟨c, hl, _, _, hcache⟩ := htag sc hsc
    exact ⟨c, hl, hcache⟩
  · simp [ResearchHost.getToolsFromClients, hens', hml']

/-- Witness for **C10**: after the first merge on the two-server host,
both caches carry the tag and a repeat merge changes nothing. -/
theorem merge_tags_caches_idempotently_witness :
    cachesAgree sampleHost sampleCat sampleScripts ∧
    (∃ h', ResearchHost.getToolsFromClients sampleEnvOf sampleHost
          sampleScripts =
        (.ok (mergeCatalogs sampleCat sampleScripts), h', []) ∧
      (∀ sc ∈ sampleScripts, ∃ c, h'.lookup sc = some c ∧
        c.toolsCache = some ((sampleCat sc).map (tagTool sc))) ∧
      ResearchHost.getToolsFromClients sampleEnvOf h' sampleScripts =
        (.ok (mergeCatalogs sampleCat sampleScripts), h', []) ∧
      (∀ (sc : String) (t : ToolDict), (tagTool sc t).name = t.name ∧
        (tagTool sc t).description = t.description ∧
        (tagTool sc t).inputSchema = t.inputSchema)) :=
  ⟨sampleHost_cachesAgree,
    merge_tags_caches_idempotently sampleEnvOf sampleEnvOf sampleHost
      sampleCat sampleScripts sampleHost_cachesAgree⟩

/-- **C8.** Bulk teardown (`ResearchHost.cleanup`) attempts a
disconnect for every registered client in registry order, regardless of
which disconnects fault (the `except` clause swallows each fault, so
the function is total and never raises), and always leaves the registry
empty. -/
theorem disconnect_all_swallows_and_empties
    (disc : String → Except Fault Unit) (h : ResearchHost) :
    (ResearchHost.cleanup disc h).1.mcpClients = [] ∧
    (ResearchHost.cleanup disc h).2 = h.mcpClients.map Prod.fst := by
  refine ⟨rfl, ?_⟩
  simp only [ResearchHost.cleanup]
  refine List.map_congr_left ?_
  intro p _
  cases disc p.1 <;> rfl

end Agent
